import Mathlib

/-!
Verification of the text-to-SQL query pipeline (backend/app/services):
a shallow embedding of `query_service.py`, `text_to_sql_chain.py` and the
relevant parts of `bigquery_service.py`, together with theorems about the
audit-logging invariant, the SQL safety gate, error propagation, the chart
heuristic, code-fence stripping, the token estimate and the memory blocks.

Python strings are modelled as lists of characters (`Str`); Python's
`str.replace(pat, "")`, `str.strip()`, `str.startswith` and the
`in`-substring test are translated as structurally recursive functions so
that every definition evaluates by kernel reduction.
-/

set_option maxHeartbeats 1000000
set_option maxRecDepth 100000
set_option linter.unusedVariables false

abbrev Str := List Char

/-- Shorthand: the character list of a string literal. -/
def str (s : String) : Str := s.toList

/-- The backtick character (spelled via its code point). -/
def btChar : Char := Char.ofNat 96

/-- `"```"`, the bare triple-backtick code fence delimiter. -/
def fence3 : Str := [btChar, btChar, btChar]

/-- `"```sql"`, the sql-tagged code fence opener. -/
def fenceSql : Str := fence3 ++ str "sql"

/-- Python `str.isspace` characters relevant to `str.strip()`. -/
def wsChar (c : Char) : Bool :=
  c = ' ' || c = '\t' || c = '\n' || c = '\r' || c = '\x0b' || c = '\x0c'

/-- Python `str.lstrip()`. -/
def trimLeft (s : Str) : Str := s.dropWhile wsChar

/-- Python `str.rstrip()`. -/
def trimRight (s : Str) : Str := (s.reverse.dropWhile wsChar).reverse

/-- Python `str.strip()`. -/
def pyStrip (s : Str) : Str := trimRight (trimLeft s)

/-- Python `str.startswith`. -/
def startsWith : Str → Str → Bool
  | [], _ => true
  | _ :: _, [] => false
  | a :: p, b :: s => a == b && startsWith p s

/-- Python `needle in haystack` (contiguous subsequence test). -/
def containsSeq (p : Str) : Str → Bool
  | [] => startsWith p []
  | c :: rest => startsWith p (c :: rest) || containsSeq p rest

/-- One fuel-indexed step layer of Python `s.replace(p, "")`: delete every
left-to-right non-overlapping occurrence of `p` in `s`.  The fuel is only a
structural-recursion device; `s.length` fuel always suffices. -/
def deleteAllFuel : Nat → Str → Str → Str
  | 0, _, s => s
  | _ + 1, _, [] => []
  | fuel + 1, p, c :: rest =>
    if startsWith p (c :: rest) && !p.isEmpty then
      deleteAllFuel fuel p (rest.drop (p.length - 1))
    else
      c :: deleteAllFuel fuel p rest

/-- Python `s.replace(p, "")`. -/
def deleteAll (p s : Str) : Str := deleteAllFuel s.length p s

example : deleteAll (str "ab") (str "xabyab") = str "xy" := by decide

example : pyStrip (str "  a b \n") = str "a b" := by decide

example : containsSeq (str "DROP") (str "xxDROPyy") = true := by decide

/-! ### Basic lemmas about the string machinery -/

theorem startsWith_eq_true_iff {p s : Str} : startsWith p s = true ↔ p <+: s := by
  induction p generalizing s with
  | nil => simp [startsWith, List.nil_prefix]
  | cons a p ih =>
    cases s with
    | nil => simp [startsWith]
    | cons b s =>
      simp [startsWith, List.cons_prefix_cons, ih, Bool.and_eq_true, beq_iff_eq]

theorem containsSeq_eq_true_iff {p s : Str} : containsSeq p s = true ↔ p <:+: s := by
  induction s with
  | nil =>
    cases p with
    | nil => simp [containsSeq, startsWith]
    | cons a p => simp [containsSeq, startsWith]
  | cons c rest ih =>
    simp [containsSeq, Bool.or_eq_true, startsWith_eq_true_iff, ih,
      List.infix_cons_iff, or_comm]

theorem deleteAllFuel_nil (fuel : Nat) (p : Str) : deleteAllFuel fuel p [] = [] := by
  cases fuel <;> rfl

/-- The fuel argument is irrelevant as long as it covers the list length. -/
theorem deleteAllFuel_congr (p : Str) :
    ∀ f₁ f₂ s, s.length ≤ f₁ → s.length ≤ f₂ →
      deleteAllFuel f₁ p s = deleteAllFuel f₂ p s := by
  intro f₁
  induction f₁ with
  | zero =>
    intro f₂ s h₁ _
    have : s = [] := List.eq_nil_of_length_eq_zero (Nat.le_zero.mp h₁)
    subst this
    simp [deleteAllFuel_nil]
  | succ f ih =>
    intro f₂ s h₁ h₂
    cases s with
    | nil => simp [deleteAllFuel_nil]
    | cons c rest =>
      cases f₂ with
      | zero => exact absurd h₂ (by simp)
      | succ f' =>
        show deleteAllFuel (f + 1) p (c :: rest) = deleteAllFuel (f' + 1) p (c :: rest)
        simp only [deleteAllFuel]
        by_cases hm : (startsWith p (c :: rest) && !p.isEmpty) = true
        · simp only [hm, if_true]
          have hlen : (rest.drop (p.length - 1)).length ≤ rest.length := by
            simp [List.length_drop]
          exact ih f' _ (Nat.le_trans hlen (Nat.le_of_succ_le_succ h₁))
            (Nat.le_trans hlen (Nat.le_of_succ_le_succ h₂))
        · simp only [hm, if_false, Bool.false_eq_true]
          exact congrArg (c :: ·)
            (ih f' rest (Nat.le_of_succ_le_succ h₁) (Nat.le_of_succ_le_succ h₂))

theorem deleteAll_nil (p : Str) : deleteAll p [] = [] := rfl

theorem deleteAll_cons_pos {p : Str} {c : Char} {rest : Str}
    (h : startsWith p (c :: rest) = true) (hp : p ≠ []) :
    deleteAll p (c :: rest) = deleteAll p (rest.drop (p.length - 1)) := by
  have hne : p.isEmpty = false := by
    cases p with
    | nil => exact absurd rfl hp
    | cons a q => rfl
  show deleteAllFuel (rest.length + 1) p (c :: rest) = _
  simp only [deleteAllFuel, h, hne, Bool.true_and, Bool.not_false, if_true]
  exact deleteAllFuel_congr p rest.length _ _ (by simp [List.length_drop]) (Nat.le_refl _)

theorem deleteAll_cons_neg {p : Str} {c : Char} {rest : Str}
    (h : ¬ startsWith p (c :: rest) = true) :
    deleteAll p (c :: rest) = c :: deleteAll p rest := by
  have hf : startsWith p (c :: rest) = false := Bool.eq_false_iff.mpr h
  show deleteAllFuel (rest.length + 1) p (c :: rest) = _
  simp only [deleteAllFuel, hf, Bool.false_and, if_false]
  rfl

example : deleteAll fence3 (fence3 ++ str "x" ++ fence3) = str "x" := by decide

/-! ### SQL Generator post-processing (`TextToSQLChain.generate_sql`, lines 211-218) -/

/-- The markdown-fence stripping the chain applies to the raw LLM response:
strip whitespace, then `sql.replace("```sql", "").replace("```", "").strip()`
when it starts with an sql-tagged fence, `sql.replace("```", "").strip()` when
it starts with a bare fence, and the stripped text unchanged otherwise. -/
def extract_sql (content : Str) : Str :=
  let sql := pyStrip content
  if startsWith fenceSql sql then pyStrip (deleteAll fence3 (deleteAll fenceSql sql))
  else if startsWith fence3 sql then pyStrip (deleteAll fence3 sql)
  else sql

/-- The fixed prompt template of `TextToSQLChain.generate_sql` (the raw
template text, before any placeholder substitution — the token estimate in
the source is computed from this raw text). -/
def sql_template : Str := str "You are a SQL expert specializing in Google BigQuery.\nYour task is to generate precise BigQuery SQL based on the user's question.\n\nGLOBAL RULES (ALWAYS FOLLOW):\n{global_memory}\n\n{project_memory}\n\n{schema}\n\n{conversation_history}\n\nIMPORTANT FORMATTING RULES:\n- Return ONLY the SQL query, nothing else\n- Do NOT wrap the query in ```sql``` or any markdown\n- Use proper BigQuery syntax (not MySQL or PostgreSQL)\n- Always use fully qualified table names (project.dataset.table)\n- Include appropriate LIMIT clause (default: LIMIT 100)\n- Optimize for performance and cost\n\nUSER QUESTION: {question}\n\nSQL:"

/-! ### Data model (`app/models`), restricted to the fields the pipeline
reads or writes -/

/-- `GlobalInstruction` model row. -/
structure GlobalInstruction where
  instruction_text : Str
  priority : Int
  active : Bool
deriving DecidableEq

/-- `ProjectMemory` model row (business rules). -/
structure ProjectMemory where
  project_id : Str
  key : Str
  content : Str
deriving DecidableEq

/-- `ProjectInstruction` model row. -/
structure ProjectInstruction where
  project_id : Str
  instruction_text : Str
  priority : Int
  active : Bool
deriving DecidableEq

/-- `QueryLog` audit record (fields the pipeline populates; timing and
client-metadata columns are omitted as no claim mentions them). -/
structure QueryLog where
  id : Str
  user_id : Str
  project_id : Str
  conversation_id : Option Str
  user_question : Str
  generated_sql : Option Str
  sql_tokens_used : Option Nat
  execution_status : Option Str
  rows_returned : Option Nat
  error_message : Option Str
  model_used : Str
deriving DecidableEq

/-- `Message` model row (a conversation turn). -/
structure Message where
  conversation_id : Str
  role : Str
  content : Str
  tokens_used : Nat
deriving DecidableEq

/-- `Conversation` model row (id and title; `title` is nullable). -/
structure Conversation where
  id : Str
  title : Option Str
deriving DecidableEq

/-- One column of a BigQuery result schema (`{"name": ..., "type": ...}`). -/
structure ColumnSchema where
  name : Str
  colType : Str
deriving DecidableEq

/-- Result of `BigQueryService.execute_query` (rows themselves are not
inspected by any claim, only the schema and counters). -/
structure ExecResult where
  schema : List ColumnSchema
  rows_returned : Nat
  bytes_processed : Nat
deriving DecidableEq

/-- A chart suggestion `{"type": ..., "title": ...}`. -/
structure ChartSuggestion where
  chartType : Str
  title : Str
deriving DecidableEq

/-- Result dictionary of `TextToSQLChain.generate_sql` (the generation-time
field is wall-clock time and is omitted). -/
structure GenResult where
  sql : Str
  tokens_used : Nat
deriving DecidableEq

/-- The relational store visible to the pipeline. -/
structure DBState where
  logs : List QueryLog
  messages : List Message
  conversations : List Conversation
  global_instructions : List GlobalInstruction
  project_memory : List ProjectMemory
  project_instructions : List ProjectInstruction
deriving DecidableEq

/-- A SQLAlchemy session: `committed` is the persisted store, `view` the
in-session unit-of-work state (staged adds and attribute mutations), and
`broken` records that a commit has failed: SQLAlchemy then raises on every
further commit until `rollback()` is called, which this service never calls. -/
structure Session where
  committed : DBState
  view : DBState
  commitCount : Nat
  broken : Bool

/-- External collaborators of one pipeline invocation: the LLM call outcome,
the warehouse outcome per SQL text, the commit outcome per commit index, and
the `uuid4()` drawn for the audit record. -/
structure Env where
  llm : Except Str Str
  warehouse : Str → Except Str ExecResult
  commitFail : Nat → Option Str
  freshId : Str

/-- A fresh request-scoped session mirroring the persisted store. -/
def mkSession (db : DBState) : Session :=
  { committed := db, view := db, commitCount := 0, broken := false }

/-- `db.commit()`: on success the staged view becomes the persisted state; on
failure the session is poisoned (pending-rollback) and later commits fail. -/
def Session.commit (env : Env) (s : Session) : Session × Option Str :=
  if s.broken then
    ({ s with commitCount := s.commitCount + 1 },
      some (str "PendingRollbackError: this session's transaction has been rolled back"))
  else
    match env.commitFail s.commitCount with
    | some e => ({ s with commitCount := s.commitCount + 1, broken := true }, some e)
    | none =>
      ({ committed := s.view, view := s.view, commitCount := s.commitCount + 1,
         broken := false }, none)

/-! ### Context Assembler (`TextToSQLChain._load_global_memory` /
`_load_project_memory`) -/

/-- Stable insertion step for an `ORDER BY priority` query result. -/
def insertByPriority {α : Type} (pri : α → Int) (x : α) : List α → List α
  | [] => [x]
  | y :: ys => if pri x ≤ pri y then x :: y :: ys else y :: insertByPriority pri x ys

/-- Stable sort by ascending priority (`ORDER BY priority`). -/
def sortByPriority {α : Type} (pri : α → Int) (l : List α) : List α :=
  l.foldr (insertByPriority pri) []

/-- The built-in global ruleset returned when no active global instructions
exist (verbatim from `_load_global_memory`). -/
def fallback_global_rules : Str := str "- Always use LIMIT clause for safety\n- Never use DROP, DELETE, or UPDATE statements\n- Use BigQuery standard SQL syntax\n- Optimize queries for cost (avoid SELECT *, use partitions when available)"

/-- `TextToSQLChain._load_global_memory`. -/
def load_global_memory (db : DBState) : Str :=
  let instructions := sortByPriority (·.priority) (db.global_instructions.filter (·.active))
  if instructions.isEmpty then fallback_global_rules
  else List.intercalate (str "\n") (instructions.map (fun i => str "- " ++ i.instruction_text))

/-- The sentinel returned when a project has no memory and no instructions. -/
def no_project_rules_sentinel : Str := str "No project-specific rules defined."

/-- The rendering step of `TextToSQLChain._load_project_memory`: build the
business-rules block and the instructions block and fall back to the
sentinel when the concatenation is empty. -/
def render_project_memory (rules : List ProjectMemory)
    (instructions : List ProjectInstruction) : Str :=
  let rulesBlock : Str :=
    if rules.isEmpty then []
    else str "BUSINESS RULES & DOMAIN KNOWLEDGE:\n" ++
      (rules.map (fun r => str "- " ++ r.key ++ str ": " ++ r.content ++ str "\n")).flatten ++
      str "\n"
  let instrBlock : Str :=
    if instructions.isEmpty then []
    else str "PROJECT-SPECIFIC INSTRUCTIONS:\n" ++
      (instructions.map (fun i => str "- " ++ i.instruction_text ++ str "\n")).flatten
  let memory_text := rulesBlock ++ instrBlock
  if memory_text.isEmpty then no_project_rules_sentinel else memory_text

/-- `TextToSQLChain._load_project_memory`: query the project rules and the
active project instructions ordered by priority, then render. -/
def load_project_memory (db : DBState) (project_id : Str) : Str :=
  render_project_memory
    (db.project_memory.filter (fun r => r.project_id == project_id))
    (sortByPriority (fun i => i.priority)
      ((db.project_instructions.filter (fun i => i.project_id == project_id)).filter
        (fun i => i.active)))

/-! ### SQL Generator (`TextToSQLChain.generate_sql`) and Query Executor
(`BigQueryService.execute_query`) against the external oracles -/

/-- `TextToSQLChain.generate_sql`: one LLM call, fence stripping, and the
character-count token estimate; a transport error is re-raised as
`Exception("SQL generation failed: ...")`. -/
def generate_sql (env : Env) (user_question : Str) : Except Str GenResult :=
  match env.llm with
  | .error e => .error (str "SQL generation failed: " ++ e)
  | .ok content =>
    let sql := extract_sql content
    .ok { sql := sql,
          tokens_used := (sql_template.length + user_question.length + sql.length) / 4 }

/-- `BigQueryService.execute_query`: a warehouse error is re-raised as
`Exception("Query execution failed: ...")`. -/
def bq_execute_query (env : Env) (sql : Str) : Except Str ExecResult :=
  match env.warehouse sql with
  | .error e => .error (str "Query execution failed: " ++ e)
  | .ok r => .ok r

/-! ### Safety Gate, Result Interpreter, conversation side effect
(`QueryService`) -/

/-- The fixed denylist of `QueryService._is_dangerous_sql`. -/
def forbidden_keywords : List Str :=
  [str "DROP", str "DELETE", str "TRUNCATE", str "ALTER", str "CREATE", str "UPDATE"]

/-- `QueryService._is_dangerous_sql`: uppercase the SQL and scan for any
denylisted keyword as a plain substring. -/
def is_dangerous_sql (sql : Str) : Bool :=
  let sql_upper := sql.map Char.toUpper
  forbidden_keywords.any (fun kw => containsSeq kw sql_upper)

/-- Decimal rendering of a row count. -/
def natToStr (n : Nat) : Str := str (toString n)

/-- `QueryService._generate_basic_insights`. -/
def generate_basic_insights (result : ExecResult) : Str :=
  if result.rows_returned = 0 then str "No results found for your query."
  else str "Query returned " ++ natToStr result.rows_returned ++ str " row(s). "

/-- The date-like column types of the chart heuristic. -/
def dateTypes : List Str := [str "DATE", str "DATETIME", str "TIMESTAMP"]

/-- The numeric column types of the chart heuristic. -/
def numericTypes : List Str := [str "INTEGER", str "FLOAT", str "NUMERIC"]

/-- `QueryService._suggest_chart`. -/
def suggest_chart (result : ExecResult) : Option ChartSuggestion :=
  let schema := result.schema
  let rows_count := result.rows_returned
  if rows_count = 0 ∨ schema.length = 0 then none
  else if schema.length = 1 then some { chartType := str "metric", title := str "Single Value" }
  else
    match schema with
    | col1 :: col2 :: rest =>
      if rest.isEmpty then
        if dateTypes.contains col1.colType then
          some { chartType := str "line", title := str "Trend Over Time" }
        else if col1.colType == str "STRING" && numericTypes.contains col2.colType then
          some { chartType := str "bar", title := str "Comparison" }
        else some { chartType := str "table", title := str "Data View" }
      else some { chartType := str "table", title := str "Data Table" }
    | _ => some { chartType := str "table", title := str "Data View" }

/-- Python truthiness of an optional string (`if conversation_id:`). -/
def optTruthy : Option Str → Bool
  | none => false
  | some s => !s.isEmpty

/-- Python falsiness of a nullable title (`if not conversation.title:`). -/
def titleFalsy : Option Str → Bool
  | none => true
  | some t => t.isEmpty

/-- The `.filter(Conversation.id == conversation_id).first()` lookup followed
by the title back-fill: only the first conversation with the given id is
touched, and only when its title is null or empty. -/
def setTitleIfUnset (convs : List Conversation) (cid question : Str) : List Conversation :=
  match convs with
  | [] => []
  | c :: cs =>
    if c.id == cid then
      (if titleFalsy c.title then { c with title := some (question.take 100) } else c) :: cs
    else c :: setTitleIfUnset cs cid question

/-- The assistant turn's content, `f"Generated SQL:\n```sql\n{sql}\n```"`. -/
def assistantContent (sql : Str) : Str := str "Generated SQL:\n```sql\n" ++ sql ++ str "\n```"

/-- `QueryService._save_to_conversation`: stage one user turn, one assistant
turn, and the conditional title update. -/
def DBState.save_to_conversation (st : DBState) (cid question sql : Str) (tokens : Nat) :
    DBState :=
  { st with
    messages := st.messages ++
      [ { conversation_id := cid, role := str "user", content := question, tokens_used := 0 },
        { conversation_id := cid, role := str "assistant", content := assistantContent sql,
          tokens_used := tokens } ],
    conversations := setTitleIfUnset st.conversations cid question }

/-- `db.add(log_entry)`: adding the same (mutated) object twice is idempotent
in SQLAlchemy's identity map, so a record with an already-staged id replaces
the staged version. -/
def DBState.addLog (st : DBState) (l : QueryLog) : DBState :=
  if st.logs.any (fun x => x.id == l.id) then
    { st with logs := st.logs.map (fun x => if x.id == l.id then l else x) }
  else { st with logs := st.logs ++ [l] }

/-! ### Orchestrator (`QueryService.process_question` /
`execute_sql_directly`) -/

/-- The structured response dictionary of `process_question`. -/
structure QueryResponse where
  query_id : Str
  sql : Option Str
  result : Option ExecResult
  insights : Option Str
  suggested_chart : Option ChartSuggestion
  tokens_used : Nat
  error : Option Str
deriving DecidableEq

/-- The response dictionary of `execute_sql_directly`. -/
structure DirectResponse where
  sql : Str
  result : Option ExecResult
  error : Option Str
deriving DecidableEq

/-- Outcome of one `process_question` invocation: final session state, the
SQL texts sent to the warehouse, and either a returned response (`ok`) or an
exception escaping the entry point (`error`). -/
structure PipelineRun where
  session : Session
  calls : List Str
  result : Except Str QueryResponse

/-- Outcome of one `execute_sql_directly` invocation. -/
structure DirectRun where
  session : Session
  calls : List Str
  response : DirectResponse

/-- The message of the safety-gate exception in `process_question`. -/
def forbiddenOpsMsg : Str := str "SQL query contains forbidden operations (DROP, DELETE, etc.)"

/-- The mutation the error handler applies to the audit record:
`execution_status = "failed"`, `error_message = str(e)`. -/
def failLog (log : QueryLog) (e : Str) : QueryLog :=
  { log with execution_status := some (str "failed"), error_message := some e }

/-- The session as the error handler leaves it before committing: the failed
audit record staged into the unit of work. -/
def stageFailed (s : Session) (log : QueryLog) (e : Str) : Session :=
  { s with view := s.view.addLog (failLog log e) }

/-- The `except Exception` handler of `process_question`: mark the audit
record failed, stage it, commit, and return the structured error response;
a failing commit here escapes uncaught. -/
def pqFinalizeFailed (env : Env) (s : Session) (log : QueryLog) (e : Str)
    (calls : List Str) : PipelineRun :=
  let logF := failLog log e
  let s1 := stageFailed s log e
  match s1.commit env with
  | (s2, none) =>
    { session := s2, calls := calls,
      result := .ok { query_id := log.id, sql := logF.generated_sql, result := none,
                      insights := none, suggested_chart := none,
                      tokens_used := logF.sql_tokens_used.getD 0, error := some e } }
  | (s2, some e2) => { session := s2, calls := calls, result := .error e2 }

/-- `QueryService.process_question`. -/
def process_question (env : Env) (project_id user_id question : Str)
    (conversation_id : Option Str) (model : Str) (s : Session) : PipelineRun :=
  let log0 : QueryLog :=
    { id := env.freshId, user_id := user_id, project_id := project_id,
      conversation_id := conversation_id, user_question := question,
      generated_sql := none, sql_tokens_used := none, execution_status := none,
      rows_returned := none, error_message := none, model_used := model }
  match generate_sql env question with
  | .error e => pqFinalizeFailed env s log0 e []
  | .ok g =>
    let log1 := { log0 with generated_sql := some g.sql, sql_tokens_used := some g.tokens_used }
    if is_dangerous_sql g.sql then
      pqFinalizeFailed env s log1 forbiddenOpsMsg []
    else
      match bq_execute_query env g.sql with
      | .error e => pqFinalizeFailed env s log1 e [g.sql]
      | .ok r =>
        let log2 := { log1 with
                      execution_status := some (str "success"),
                      rows_returned := some r.rows_returned }
        let insights := generate_basic_insights r
        let chart := suggest_chart r
        let s1 := { s with view := s.view.addLog log2 }
        let s2 :=
          if optTruthy conversation_id then
            let v := s1.view.save_to_conversation (conversation_id.getD []) question g.sql
              g.tokens_used
            { s1 with view := v }
          else s1
        match s2.commit env with
        | (s3, none) =>
          { session := s3, calls := [g.sql],
            result := .ok { query_id := env.freshId, sql := some g.sql, result := some r,
                            insights := some insights, suggested_chart := chart,
                            tokens_used := g.tokens_used, error := none } }
        | (s3, some e) => pqFinalizeFailed env s3 log2 e [g.sql]

/-- The message of the safety-gate exception in `execute_sql_directly`. -/
def directForbiddenMsg : Str := str "SQL contains forbidden operations"

/-- `QueryService.execute_sql_directly`: gate, execute, return; it stages and
commits nothing. -/
def execute_sql_directly (env : Env) (project_id user_id sql : Str)
    (conversation_id : Option Str) (s : Session) : DirectRun :=
  if is_dangerous_sql sql then
    { session := s, calls := [],
      response := { sql := sql, result := none, error := some directForbiddenMsg } }
  else
    match bq_execute_query env sql with
    | .error e =>
      { session := s, calls := [sql],
        response := { sql := sql, result := none, error := some e } }
    | .ok r =>
      { session := s, calls := [sql],
        response := { sql := sql, result := some r, error := none } }

/-! ### Helper lemmas about sessions and the failure handler -/

theorem commit_ok {env : Env} {s : Session} (hb : s.broken = false)
    (hc : env.commitFail s.commitCount = none) :
    s.commit env =
      ({ committed := s.view, view := s.view, commitCount := s.commitCount + 1,
         broken := false }, none) := by
  simp [Session.commit, hb, hc]

theorem commit_fail {env : Env} {s : Session} {m : Str} (hb : s.broken = false)
    (hc : env.commitFail s.commitCount = some m) :
    s.commit env =
      ({ s with commitCount := s.commitCount + 1, broken := true }, some m) := by
  simp [Session.commit, hb, hc]

theorem commit_broken {env : Env} {s : Session} (hb : s.broken = true) :
    s.commit env =
      ({ s with commitCount := s.commitCount + 1 },
        some (str "PendingRollbackError: this session's transaction has been rolled back")) := by
  simp [Session.commit, hb]

theorem pqFinalizeFailed_calls (env : Env) (s : Session) (log : QueryLog) (e : Str)
    (calls : List Str) : (pqFinalizeFailed env s log e calls).calls = calls := by
  unfold pqFinalizeFailed
  rcases h : Session.commit env (stageFailed s log e) with ⟨s2, o⟩
  cases o <;> simp [h]

theorem stageFailed_broken (s : Session) (log : QueryLog) (e : Str) :
    (stageFailed s log e).broken = s.broken := rfl

theorem stageFailed_commitCount (s : Session) (log : QueryLog) (e : Str) :
    (stageFailed s log e).commitCount = s.commitCount := rfl

theorem pqFinalizeFailed_commit_ok {env : Env} {s : Session} (log : QueryLog) (e : Str)
    (calls : List Str) (hb : s.broken = false) (hc : env.commitFail s.commitCount = none) :
    (pqFinalizeFailed env s log e calls).result = Except.ok
      { query_id := log.id, sql := log.generated_sql, result := none, insights := none,
        suggested_chart := none, tokens_used := log.sql_tokens_used.getD 0, error := some e }
    ∧ (pqFinalizeFailed env s log e calls).session.committed =
        s.view.addLog (failLog log e) := by
  simp only [pqFinalizeFailed]
  rw [commit_ok (s := stageFailed s log e) hb hc]
  exact ⟨rfl, rfl⟩

theorem pqFinalizeFailed_commit_fail {env : Env} {s : Session} (log : QueryLog) (e m : Str)
    (calls : List Str) (hb : s.broken = false) (hc : env.commitFail s.commitCount = some m) :
    (pqFinalizeFailed env s log e calls).result = Except.error m := by
  simp only [pqFinalizeFailed]
  rw [commit_fail (s := stageFailed s log e) hb hc]

theorem pqFinalizeFailed_broken {env : Env} {s : Session} (log : QueryLog) (e : Str)
    (calls : List Str) (hb : s.broken = true) :
    (pqFinalizeFailed env s log e calls).result =
      Except.error (str "PendingRollbackError: this session's transaction has been rolled back") := by
  simp only [pqFinalizeFailed]
  rw [commit_broken (s := stageFailed s log e) hb]

theorem addLog_logs_of_fresh {st : DBState} {l : QueryLog}
    (h : st.logs.any (fun x => x.id == l.id) = false) :
    (st.addLog l).logs = st.logs ++ [l] := by
  simp [DBState.addLog, h]

/-! ### C5: the chart heuristic -/

/-- The chart kind the spec's decision table prescribes, written from the
claim's wording (zero rows or no columns: no suggestion; 1 column: metric;
2 columns with a date-like first column: line; 2 columns string+numeric:
bar; 3 or more columns, or an unmatched 2-column shape: table). -/
def chart_rule_from_spec (columns : List ColumnSchema) (rowCount : Nat) : Option Str :=
  if rowCount = 0 ∨ columns.length = 0 then none
  else
    match columns with
    | [_] => some (str "metric")
    | [c1, c2] =>
      if c1.colType = str "DATE" ∨ c1.colType = str "DATETIME" ∨
          c1.colType = str "TIMESTAMP" then
        some (str "line")
      else if c1.colType = str "STRING" ∧
          (c2.colType = str "INTEGER" ∨ c2.colType = str "FLOAT" ∨
            c2.colType = str "NUMERIC") then
        some (str "bar")
      else some (str "table")
    | _ => some (str "table")

theorem suggest_chart_cases (result : ExecResult) (c : ChartSuggestion)
    (h : suggest_chart result = some c) :
    c = ⟨str "metric", str "Single Value"⟩ ∨ c = ⟨str "line", str "Trend Over Time"⟩ ∨
      c = ⟨str "bar", str "Comparison"⟩ ∨ c = ⟨str "table", str "Data Table"⟩ ∨
      c = ⟨str "table", str "Data View"⟩ := by
  obtain ⟨schema, rows, bytes⟩ := result
  unfold suggest_chart at h
  rcases schema with _ | ⟨c1, _ | ⟨c2, rest⟩⟩
  · simp_all
  · simp_all
  · by_cases h0 : rows = 0
    · simp [h0] at h
    · rcases rest with _ | ⟨c3, rest'⟩
      · by_cases hd : c1.colType ∈ dateTypes
        · simp [h0, hd, List.isEmpty] at h
          tauto
        · by_cases hn : c1.colType = str "STRING" ∧ c2.colType ∈ numericTypes
          · simp [h0, hd, hn, List.isEmpty] at h
            rw [if_neg (by decide)] at h
            simp_all
          · simp [h0, hd, hn, List.isEmpty] at h
            tauto
      · simp [h0, List.isEmpty] at h
        tauto

theorem dateTypes_contains_iff (t : Str) :
    dateTypes.contains t = true ↔
      t = str "DATE" ∨ t = str "DATETIME" ∨ t = str "TIMESTAMP" := by
  simp [dateTypes]

theorem numericTypes_contains_iff (t : Str) :
    numericTypes.contains t = true ↔
      t = str "INTEGER" ∨ t = str "FLOAT" ∨ t = str "NUMERIC" := by
  simp [numericTypes]

/-- C5: the chart-suggestion function is a pure function of the result shape
implementing exactly the documented decision table, in its stated order:
its suggested kind coincides with the spec's table everywhere, a `line`
suggestion always carries the title "Trend Over Time", and a `bar`
suggestion always carries the title "Comparison". -/
theorem chart_heuristic_matches_spec (result : ExecResult) :
    (suggest_chart result).map (fun c => c.chartType) =
      chart_rule_from_spec result.schema result.rows_returned
    ∧ (∀ c, suggest_chart result = some c → c.chartType = str "line" →
        c.title = str "Trend Over Time")
    ∧ (∀ c, suggest_chart result = some c → c.chartType = str "bar" →
        c.title = str "Comparison") := by
  refine ⟨?_, ?_, ?_⟩
  · obtain ⟨schema, rows, bytes⟩ := result
    by_cases h0 : rows = 0
    · simp [suggest_chart, chart_rule_from_spec, h0]
    · rcases schema with _ | ⟨c1, _ | ⟨c2, _ | ⟨c3, rest'⟩⟩⟩
      · simp [suggest_chart, chart_rule_from_spec, h0]
      · simp [suggest_chart, chart_rule_from_spec, h0]
      · by_cases hd : c1.colType ∈ dateTypes
        · have hd2 : c1.colType = str "DATE" ∨ c1.colType = str "DATETIME" ∨
              c1.colType = str "TIMESTAMP" := by simpa [dateTypes] using hd
          simp [suggest_chart, chart_rule_from_spec, h0, hd, hd2, List.isEmpty]
        · have hd2 : ¬(c1.colType = str "DATE" ∨ c1.colType = str "DATETIME" ∨
              c1.colType = str "TIMESTAMP") := by simpa [dateTypes] using hd
          by_cases hn : c1.colType = str "STRING" ∧ c2.colType ∈ numericTypes
          · have hn2 : c1.colType = str "STRING" ∧ (c2.colType = str "INTEGER" ∨
                c2.colType = str "FLOAT" ∨ c2.colType = str "NUMERIC") := by
              simpa [numericTypes] using hn
            simp [suggest_chart, chart_rule_from_spec, h0, hd, hd2, hn, hn2,
              List.isEmpty]
            decide
          · have hn2 : ¬(c1.colType = str "STRING" ∧ (c2.colType = str "INTEGER" ∨
                c2.colType = str "FLOAT" ∨ c2.colType = str "NUMERIC")) := by
              simpa [numericTypes] using hn
            simp [suggest_chart, chart_rule_from_spec, h0, hd, hd2, hn, hn2,
              List.isEmpty]
      · simp [suggest_chart, chart_rule_from_spec, h0, List.isEmpty]
  · intro c hc hl
    rcases suggest_chart_cases result c hc with h | h | h | h | h <;> subst h
    · exact absurd hl (by decide)
    · rfl
    · exact absurd hl (by decide)
    · exact absurd hl (by decide)
    · exact absurd hl (by decide)
  · intro c hc hb
    rcases suggest_chart_cases result c hc with h | h | h | h | h <;> subst h
    · exact absurd hb (by decide)
    · exact absurd hb (by decide)
    · rfl
    · exact absurd hb (by decide)
    · exact absurd hb (by decide)

/-- Closed witness for C5, at a `[DATE, FLOAT]` two-column result with 5
rows: the heuristic yields a `line` chart titled "Trend Over Time", matching
the spec rule. -/
theorem chart_heuristic_matches_spec_witness :
    (suggest_chart ⟨[⟨str "d", str "DATE"⟩, ⟨str "v", str "FLOAT"⟩], 5, 0⟩).map
        (fun c => c.chartType) =
      chart_rule_from_spec [⟨str "d", str "DATE"⟩, ⟨str "v", str "FLOAT"⟩] 5
    ∧ (⟨str "line", str "Trend Over Time"⟩ : ChartSuggestion).title =
        str "Trend Over Time" := by
  have h := chart_heuristic_matches_spec ⟨[⟨str "d", str "DATE"⟩, ⟨str "v", str "FLOAT"⟩], 5, 0⟩
  refine ⟨h.1, ?_⟩
  exact h.2.1 ⟨str "line", str "Trend Over Time"⟩ (by decide) (by decide)

/-! ### C8: the token estimate -/

/-- C8: for every successful generation, the reported token count equals the
floor division by 4 of the summed character counts of the fixed prompt
template, the user question, and the post-processed SQL answer. -/
theorem token_estimate_formula (env : Env) (q : Str) (g : GenResult)
    (h : generate_sql env q = Except.ok g) :
    g.tokens_used = (sql_template.length + q.length + g.sql.length) / 4 := by
  cases hl : env.llm with
  | error e => simp [generate_sql, hl] at h
  | ok content =>
    simp [generate_sql, hl] at h
    subst h
    rfl

/-- Environment used by generation witnesses: the LLM answers "SELECT 1". -/
def witGenEnv : Env :=
  { llm := Except.ok (str "SELECT 1"), warehouse := fun _ => Except.error [],
    commitFail := fun _ => none, freshId := str "q-1" }

/-- Closed witness for C8 at question "q" and LLM answer "SELECT 1". -/
theorem token_estimate_formula_witness :
    (⟨str "SELECT 1", (sql_template.length + 9) / 4⟩ : GenResult).tokens_used =
      (sql_template.length + (str "q").length + (str "SELECT 1").length) / 4 :=
  token_estimate_formula witGenEnv (str "q")
    ⟨str "SELECT 1", (sql_template.length + 9) / 4⟩ rfl

/-! ### C2: the safety gate -/

/-- C2: the gate flags exactly the SQL strings containing a denylisted
keyword as a case-insensitive substring (anywhere, string literals and
comments included); a flagged statement is rejected with no warehouse call
in both entry points, and an unflagged statement passes the gate and reaches
the warehouse in the direct entry point. -/
theorem safety_gate_denylist (sql : Str) :
    (is_dangerous_sql sql = true ↔
      ∃ kw ∈ forbidden_keywords, kw <:+: sql.map Char.toUpper)
    ∧ (is_dangerous_sql sql = true → ∀ env pid uid cid s,
        (execute_sql_directly env pid uid sql cid s).calls = []
        ∧ (execute_sql_directly env pid uid sql cid s).response.error =
            some directForbiddenMsg)
    ∧ (is_dangerous_sql sql = true → ∀ env pid uid q cid model g s,
        generate_sql env q = Except.ok g → g.sql = sql →
        (process_question env pid uid q cid model s).calls = [])
    ∧ (is_dangerous_sql sql = false → ∀ env pid uid cid s,
        (execute_sql_directly env pid uid sql cid s).calls = [sql]) := by
  refine ⟨?_, ?_, ?_, ?_⟩
  · simp only [is_dangerous_sql, List.any_eq_true]
    constructor
    · rintro ⟨kw, hm, hc⟩
      exact ⟨kw, hm, containsSeq_eq_true_iff.mp hc⟩
    · rintro ⟨kw, hm, hc⟩
      exact ⟨kw, hm, containsSeq_eq_true_iff.mpr hc⟩
  · intro h env pid uid cid s
    refine ⟨?_, ?_⟩ <;> simp [execute_sql_directly, h]
  · intro h env pid uid q cid model g s hg hsql
    simp only [process_question, hg, hsql, h, if_true]
    exact pqFinalizeFailed_calls _ _ _ _ _
  · intro h env pid uid cid s
    simp only [execute_sql_directly, h, Bool.false_eq_true, if_false]
    cases hw : bq_execute_query env sql <;> simp [hw]

/-- The empty persisted store, used by several witnesses. -/
def emptyDB : DBState := ⟨[], [], [], [], [], []⟩

/-- Environment used by direct-execution witnesses. -/
def witDirectEnv : Env :=
  { llm := Except.error (str "x"), warehouse := fun _ => Except.ok ⟨[], 1, 0⟩,
    commitFail := fun _ => none, freshId := str "id-1" }

/-- Closed witness for C2: "DROP TABLE t" is rejected with no warehouse
call; "SELECT 1" reaches the warehouse. -/
theorem safety_gate_denylist_witness :
    (execute_sql_directly witDirectEnv (str "p") (str "u") (str "DROP TABLE t") none
        (mkSession emptyDB)).calls = []
    ∧ (execute_sql_directly witDirectEnv (str "p") (str "u") (str "SELECT 1") none
        (mkSession emptyDB)).calls = [str "SELECT 1"] := by
  have h := safety_gate_denylist (str "DROP TABLE t")
  have h2 := safety_gate_denylist (str "SELECT 1")
  exact ⟨(h.2.1 (by decide) witDirectEnv (str "p") (str "u") none (mkSession emptyDB)).1,
    h2.2.2.2 (by decide) witDirectEnv (str "p") (str "u") none (mkSession emptyDB)⟩

/-! ### C9: the context assembler's fallback and sentinel blocks -/

/-- The project block as the spec describes it: business-rule entries
labelled `key: content`, then active project instructions ordered by
priority, and the fixed "no rules" sentinel when both are empty. -/
def project_block_from_spec (rules : List ProjectMemory)
    (instructions : List ProjectInstruction) : Str :=
  if rules.isEmpty ∧ instructions.isEmpty then no_project_rules_sentinel
  else
    (if rules.isEmpty then []
     else str "BUSINESS RULES & DOMAIN KNOWLEDGE:\n" ++
       (rules.map (fun r => str "- " ++ r.key ++ str ": " ++ r.content ++ str "\n")).flatten ++
       str "\n")
    ++ (if instructions.isEmpty then []
        else str "PROJECT-SPECIFIC INSTRUCTIONS:\n" ++
          (instructions.map (fun i => str "- " ++ i.instruction_text ++ str "\n")).flatten)

theorem strBR_ne_nil : str "BUSINESS RULES & DOMAIN KNOWLEDGE:\n" ≠ [] := by decide

theorem strPI_ne_nil : str "PROJECT-SPECIFIC INSTRUCTIONS:\n" ≠ [] := by decide

theorem render_eq_spec (rules : List ProjectMemory)
    (instructions : List ProjectInstruction) :
    render_project_memory rules instructions =
      project_block_from_spec rules instructions := by
  cases rules with
  | nil =>
    cases instructions with
    | nil => rfl
    | cons i is =>
      simp [render_project_memory, project_block_from_spec, strPI_ne_nil]
  | cons r rs =>
    cases instructions with
    | nil => simp [render_project_memory, project_block_from_spec, strBR_ne_nil]
    | cons i is =>
      simp [render_project_memory, project_block_from_spec, strBR_ne_nil, strPI_ne_nil]

/-- C9: with no active global instructions the global block is the built-in
ruleset verbatim; with no project memory and no active project instructions
the project block is the fixed sentinel; and in general the project block
renders `key: content` business rules followed by active project
instructions ordered by priority, exactly as the spec describes. -/
theorem memory_block_fallbacks (db : DBState) (pid : Str) :
    (db.global_instructions.filter (fun i => i.active) = [] →
      load_global_memory db = fallback_global_rules)
    ∧ (db.project_memory.filter (fun r => r.project_id == pid) = [] →
        (db.project_instructions.filter (fun i => i.project_id == pid)).filter
            (fun i => i.active) = [] →
        load_project_memory db pid = no_project_rules_sentinel)
    ∧ load_project_memory db pid =
        project_block_from_spec
          (db.project_memory.filter (fun r => r.project_id == pid))
          (sortByPriority (fun i => i.priority)
            ((db.project_instructions.filter (fun i => i.project_id == pid)).filter
              (fun i => i.active))) := by
  refine ⟨?_, ?_, ?_⟩
  · intro hg
    simp [load_global_memory, hg, sortByPriority]
  · intro hr hi
    simp only [load_project_memory, hr, hi]
    rfl
  · exact render_eq_spec _ _

/-- Closed witness for C9 on the empty store: the global block is the
built-in ruleset and the project block is the sentinel. -/
theorem memory_block_fallbacks_witness :
    load_global_memory emptyDB = fallback_global_rules
    ∧ load_project_memory emptyDB (str "p") = no_project_rules_sentinel := by
  have h := memory_block_fallbacks emptyDB (str "p")
  exact ⟨h.1 (by decide), h.2.1 (by decide) (by decide)⟩

/-! ### Run-shape lemmas for `process_question` -/

/-- The audit record as initialised at the top of `process_question`. -/
def initLog (env : Env) (pid uid q model : Str) (cid : Option Str) : QueryLog :=
  { id := env.freshId, user_id := uid, project_id := pid, conversation_id := cid,
    user_question := q, generated_sql := none, sql_tokens_used := none,
    execution_status := none, rows_returned := none, error_message := none,
    model_used := model }

/-- The audit record after SQL generation succeeded. -/
def genLog (env : Env) (pid uid q model : Str) (cid : Option Str) (g : GenResult) :
    QueryLog :=
  { initLog env pid uid q model cid with
    generated_sql := some g.sql, sql_tokens_used := some g.tokens_used }

/-- The audit record after warehouse execution succeeded. -/
def successLog (env : Env) (pid uid q model : Str) (cid : Option Str) (g : GenResult)
    (r : ExecResult) : QueryLog :=
  { genLog env pid uid q model cid g with
    execution_status := some (str "success"), rows_returned := some r.rows_returned }

/-- The staged store on the success path: the success audit record, plus the
conversation turns when a truthy conversation id was supplied. -/
def successView (v : DBState) (q : Str) (cid : Option Str) (g : GenResult)
    (l : QueryLog) : DBState :=
  let v1 := v.addLog l
  if optTruthy cid then v1.save_to_conversation (cid.getD []) q g.sql g.tokens_used
  else v1

theorem pq_gen_error_run (env : Env) (pid uid q model : Str) (cid : Option Str)
    (s : Session) (e : Str) (hg : generate_sql env q = Except.error e) :
    process_question env pid uid q cid model s =
      pqFinalizeFailed env s (initLog env pid uid q model cid) e [] := by
  simp only [process_question, hg]
  rfl

theorem pq_gate_run (env : Env) (pid uid q model : Str) (cid : Option Str)
    (s : Session) (g : GenResult) (hg : generate_sql env q = Except.ok g)
    (hd : is_dangerous_sql g.sql = true) :
    process_question env pid uid q cid model s =
      pqFinalizeFailed env s (genLog env pid uid q model cid g) forbiddenOpsMsg [] := by
  simp only [process_question, hg, hd, if_true]
  rfl

theorem pq_exec_error_run (env : Env) (pid uid q model : Str) (cid : Option Str)
    (s : Session) (g : GenResult) (e : Str) (hg : generate_sql env q = Except.ok g)
    (hd : is_dangerous_sql g.sql = false) (hw : bq_execute_query env g.sql = Except.error e) :
    process_question env pid uid q cid model s =
      pqFinalizeFailed env s (genLog env pid uid q model cid g) e [g.sql] := by
  simp only [process_question, hg, hd, hw, Bool.false_eq_true, if_false]
  rfl

theorem pq_success_run (env : Env) (pid uid q model : Str) (cid : Option Str)
    (s : Session) (g : GenResult) (r : ExecResult)
    (hg : generate_sql env q = Except.ok g) (hd : is_dangerous_sql g.sql = false)
    (hw : bq_execute_query env g.sql = Except.ok r)
    (hb : s.broken = false) (hcc : env.commitFail s.commitCount = none) :
    process_question env pid uid q cid model s =
      { session :=
          { committed := successView s.view q cid g (successLog env pid uid q model cid g r),
            view := successView s.view q cid g (successLog env pid uid q model cid g r),
            commitCount := s.commitCount + 1, broken := false },
        calls := [g.sql],
        result := Except.ok
          { query_id := env.freshId, sql := some g.sql, result := some r,
            insights := some (generate_basic_insights r),
            suggested_chart := suggest_chart r,
            tokens_used := g.tokens_used, error := none } } := by
  by_cases ht : optTruthy cid = true <;>
    simp [process_question, hg, hd, hw, ht, Session.commit, hb, hcc, successView,
      successLog, genLog, initLog]

/-- `True` exactly when the invocation escaped with an uncaught exception
instead of returning a response dictionary. -/
def raisedUncaught (run : PipelineRun) : Bool :=
  match run.result with
  | Except.error _ => true
  | Except.ok _ => false

theorem raised_of_error {run : PipelineRun} {e : Str} (h : run.result = Except.error e) :
    raisedUncaught run = true := by
  simp [raisedUncaught, h]

/-! ### Frame lemmas for the staged store -/

theorem addLog_messages (st : DBState) (l : QueryLog) :
    (st.addLog l).messages = st.messages := by
  unfold DBState.addLog
  split <;> rfl

theorem addLog_conversations (st : DBState) (l : QueryLog) :
    (st.addLog l).conversations = st.conversations := by
  unfold DBState.addLog
  split <;> rfl

theorem save_logs (st : DBState) (c q sql : Str) (t : Nat) :
    (st.save_to_conversation c q sql t).logs = st.logs := rfl

theorem save_messages (st : DBState) (c q sql : Str) (t : Nat) :
    (st.save_to_conversation c q sql t).messages =
      st.messages ++
        [{ conversation_id := c, role := str "user", content := q, tokens_used := 0 },
         { conversation_id := c, role := str "assistant", content := assistantContent sql,
           tokens_used := t }] := rfl

theorem save_conversations (st : DBState) (c q sql : Str) (t : Nat) :
    (st.save_to_conversation c q sql t).conversations =
      setTitleIfUnset st.conversations c q := rfl

theorem execute_sql_directly_session (env : Env) (pid uid sql : Str) (cid : Option Str)
    (s : Session) : (execute_sql_directly env pid uid sql cid s).session = s := by
  unfold execute_sql_directly
  by_cases h : is_dangerous_sql sql = true
  · simp [h]
  · have h2 : is_dangerous_sql sql = false := Bool.eq_false_iff.mpr h
    cases hw : bq_execute_query env sql <;> simp [h2, hw]

/-! ### C1: the audit invariant -/

/-- C1 counterexample: a successful `execute_sql_directly` invocation on the
empty store ends with zero audit records, not exactly one — the direct entry
point never creates a `QueryLog`. -/
theorem direct_execution_writes_no_audit :
    (execute_sql_directly witDirectEnv (str "p") (str "u") (str "SELECT 1") none
        (mkSession emptyDB)).session.committed.logs.length = 0
    ∧ (execute_sql_directly witDirectEnv (str "p") (str "u") (str "SELECT 1") none
        (mkSession emptyDB)).response.error = none := ⟨rfl, rfl⟩

/-- C1 amended: `process_question` persists exactly one audit record per
invocation, with `execution_status ∈ {success, failed}`, whenever the audit
commit succeeds; `execute_sql_directly` leaves the session (and hence the
audit table) entirely unchanged. -/
theorem audit_record_amended (env : Env) (pid uid q model : Str) (cid : Option Str)
    (db : DBState) (hc : ∀ n, env.commitFail n = none)
    (hid : db.logs.any (fun x => x.id == env.freshId) = false) :
    (∃ l, (process_question env pid uid q cid model (mkSession db)).session.committed.logs
          = db.logs ++ [l]
        ∧ (l.execution_status = some (str "success") ∨
            l.execution_status = some (str "failed")))
    ∧ (∀ sql s, (execute_sql_directly env pid uid sql cid s).session = s) := by
  constructor
  · cases hg : generate_sql env q with
    | error e =>
      rw [pq_gen_error_run env pid uid q model cid (mkSession db) e hg]
      refine ⟨failLog (initLog env pid uid q model cid) e, ?_, Or.inr rfl⟩
      rw [(pqFinalizeFailed_commit_ok _ _ _ rfl (hc 0)).2]
      exact addLog_logs_of_fresh hid
    | ok g =>
      by_cases hd : is_dangerous_sql g.sql = true
      · rw [pq_gate_run env pid uid q model cid (mkSession db) g hg hd]
        refine ⟨failLog (genLog env pid uid q model cid g) forbiddenOpsMsg, ?_, Or.inr rfl⟩
        rw [(pqFinalizeFailed_commit_ok _ _ _ rfl (hc 0)).2]
        exact addLog_logs_of_fresh hid
      · have hd2 : is_dangerous_sql g.sql = false := Bool.eq_false_iff.mpr hd
        cases hw : bq_execute_query env g.sql with
        | error e =>
          rw [pq_exec_error_run env pid uid q model cid (mkSession db) g e hg hd2 hw]
          refine ⟨failLog (genLog env pid uid q model cid g) e, ?_, Or.inr rfl⟩
          rw [(pqFinalizeFailed_commit_ok _ _ _ rfl (hc 0)).2]
          exact addLog_logs_of_fresh hid
        | ok r =>
          rw [pq_success_run env pid uid q model cid (mkSession db) g r hg hd2 hw rfl (hc 0)]
          refine ⟨successLog env pid uid q model cid g r, ?_, Or.inl rfl⟩
          unfold successView
          by_cases ht : optTruthy cid = true
          · simp only [ht, if_true, save_logs]
            exact addLog_logs_of_fresh hid
          · simp only [ht, if_false]
            exact addLog_logs_of_fresh hid
  · intro sql s
    exact execute_sql_directly_session env pid uid sql cid s

/-- Closed witness for C1's amended form: on an empty store with a healthy
commit, exactly one audit record is persisted by `process_question` while
`execute_sql_directly` persists none. -/
theorem audit_record_amended_witness :
    (process_question witDirectEnv (str "p") (str "u") (str "q") none (str "m")
        (mkSession emptyDB)).session.committed.logs.length = 1
    ∧ (execute_sql_directly witDirectEnv (str "p") (str "u") (str "SELECT 2") none
        (mkSession emptyDB)).session.committed.logs.length = 0 := by
  have h := audit_record_amended witDirectEnv (str "p") (str "u") (str "q") (str "m") none
    emptyDB (fun n => rfl) rfl
  constructor
  · obtain ⟨l, hl, _⟩ := h.1
    rw [hl]
    rfl
  · rw [h.2 (str "SELECT 2") (mkSession emptyDB)]
    rfl

/-! ### C3: error containment at the orchestrator boundary -/

/-- C3: generation, safety-gate and execution failures are caught at the
orchestrator boundary: the call returns (never raises) a structured response
whose `error` field carries the failure message, a finalized failed audit
record is committed, and the returned generated-SQL field is `none` when
generation did not complete and the generated SQL when it did. -/
theorem pipeline_error_containment (env : Env) (pid uid q model : Str) (cid : Option Str)
    (db : DBState) (hc : ∀ n, env.commitFail n = none)
    (hid : db.logs.any (fun x => x.id == env.freshId) = false) :
    (∀ e, generate_sql env q = Except.error e →
      (process_question env pid uid q cid model (mkSession db)).result = Except.ok
        { query_id := env.freshId, sql := none, result := none, insights := none,
          suggested_chart := none, tokens_used := 0, error := some e }
      ∧ (process_question env pid uid q cid model (mkSession db)).session.committed.logs
          = db.logs ++ [failLog (initLog env pid uid q model cid) e])
    ∧ (∀ g, generate_sql env q = Except.ok g → is_dangerous_sql g.sql = true →
      (process_question env pid uid q cid model (mkSession db)).result = Except.ok
        { query_id := env.freshId, sql := some g.sql, result := none, insights := none,
          suggested_chart := none, tokens_used := g.tokens_used,
          error := some forbiddenOpsMsg }
      ∧ (process_question env pid uid q cid model (mkSession db)).session.committed.logs
          = db.logs ++ [failLog (genLog env pid uid q model cid g) forbiddenOpsMsg])
    ∧ (∀ g e, generate_sql env q = Except.ok g → is_dangerous_sql g.sql = false →
      bq_execute_query env g.sql = Except.error e →
      (process_question env pid uid q cid model (mkSession db)).result = Except.ok
        { query_id := env.freshId, sql := some g.sql, result := none, insights := none,
          suggested_chart := none, tokens_used := g.tokens_used, error := some e }
      ∧ (process_question env pid uid q cid model (mkSession db)).session.committed.logs
          = db.logs ++ [failLog (genLog env pid uid q model cid g) e]) := by
  refine ⟨?_, ?_, ?_⟩
  · intro e hg
    rw [pq_gen_error_run env pid uid q model cid (mkSession db) e hg]
    constructor
    · exact (pqFinalizeFailed_commit_ok _ _ _ rfl (hc 0)).1
    · rw [(pqFinalizeFailed_commit_ok _ _ _ rfl (hc 0)).2]
      exact addLog_logs_of_fresh hid
  · intro g hg hd
    rw [pq_gate_run env pid uid q model cid (mkSession db) g hg hd]
    constructor
    · exact (pqFinalizeFailed_commit_ok _ _ _ rfl (hc 0)).1
    · rw [(pqFinalizeFailed_commit_ok _ _ _ rfl (hc 0)).2]
      exact addLog_logs_of_fresh hid
  · intro g e hg hd hw
    rw [pq_exec_error_run env pid uid q model cid (mkSession db) g e hg hd hw]
    constructor
    · exact (pqFinalizeFailed_commit_ok _ _ _ rfl (hc 0)).1
    · rw [(pqFinalizeFailed_commit_ok _ _ _ rfl (hc 0)).2]
      exact addLog_logs_of_fresh hid

/-- Environment for C3's witness: the LLM raises a transport error. -/
def witGenFailEnv : Env :=
  { llm := Except.error (str "connection reset"),
    warehouse := fun _ => Except.ok ⟨[], 1, 0⟩,
    commitFail := fun _ => none, freshId := str "id-3" }

/-- Closed witness for C3: an LLM transport error is returned as a
structured error result with a null SQL field and a wrapped message. -/
theorem pipeline_error_containment_witness :
    (process_question witGenFailEnv (str "p") (str "u") (str "q") none (str "m")
        (mkSession emptyDB)).result = Except.ok
      { query_id := str "id-3", sql := none, result := none, insights := none,
        suggested_chart := none, tokens_used := 0,
        error := some (str "SQL generation failed: connection reset") } := by
  have h := (pipeline_error_containment witGenFailEnv (str "p") (str "u") (str "q")
    (str "m") none emptyDB (fun n => rfl) rfl).1
    (str "SQL generation failed: connection reset") rfl
  exact h.1

/-! ### C4: persistence failures escape uncaught -/

/-- C4: when the audit commit fails, `process_question` ends in an uncaught
exception instead of a structured error result — the first commit failure is
caught by the handler, but the handler's own commit then runs on a
pending-rollback session and raises; this holds on every path, including the
one where the warehouse query itself succeeded. -/
theorem persistence_failure_propagates (env : Env) (pid uid q model : Str)
    (cid : Option Str) (db : DBState) (m : Str) (h0 : env.commitFail 0 = some m) :
    raisedUncaught (process_question env pid uid q cid model (mkSession db)) = true := by
  cases hg : generate_sql env q with
  | error e =>
    rw [pq_gen_error_run env pid uid q model cid (mkSession db) e hg]
    exact raised_of_error (pqFinalizeFailed_commit_fail _ _ _ _ rfl h0)
  | ok g =>
    by_cases hd : is_dangerous_sql g.sql = true
    · rw [pq_gate_run env pid uid q model cid (mkSession db) g hg hd]
      exact raised_of_error (pqFinalizeFailed_commit_fail _ _ _ _ rfl h0)
    · have hd2 : is_dangerous_sql g.sql = false := Bool.eq_false_iff.mpr hd
      cases hw : bq_execute_query env g.sql with
      | error e =>
        rw [pq_exec_error_run env pid uid q model cid (mkSession db) g e hg hd2 hw]
        exact raised_of_error (pqFinalizeFailed_commit_fail _ _ _ _ rfl h0)
      | ok r =>
        by_cases ht : optTruthy cid = true
        · simp only [process_question, hg, hd2, hw, Bool.false_eq_true, if_false, ht,
            if_true, mkSession, Session.commit, h0]
          exact raised_of_error (pqFinalizeFailed_broken _ _ _ rfl)
        · simp only [process_question, hg, hd2, hw, Bool.false_eq_true, if_false, ht,
            mkSession, Session.commit, h0]
          exact raised_of_error (pqFinalizeFailed_broken _ _ _ rfl)

/-- Environment for C4's witness: LLM and warehouse succeed, the database
commit fails. -/
def witPersistEnv : Env :=
  { llm := Except.ok (str "SELECT 1"), warehouse := fun _ => Except.ok ⟨[], 1, 0⟩,
    commitFail := fun n => if n = 0 then some (str "db down") else none,
    freshId := str "id-4" }

/-- Closed witness for C4: the warehouse query succeeded, yet the commit
failure escapes as an uncaught exception. -/
theorem persistence_failure_propagates_witness :
    raisedUncaught (process_question witPersistEnv (str "p") (str "u") (str "q") none
      (str "m") (mkSession emptyDB)) = true :=
  persistence_failure_propagates witPersistEnv (str "p") (str "u") (str "q") (str "m")
    none emptyDB (str "db down") rfl

/-! ### C7: the conversation side effect -/

theorem setTitleIfUnset_split (pre : List Conversation) (conv : Conversation)
    (post : List Conversation) (cid q : Str)
    (hpre : ∀ x ∈ pre, (x.id == cid) = false) (hconv : (conv.id == cid) = true) :
    setTitleIfUnset (pre ++ conv :: post) cid q =
      pre ++ (if titleFalsy conv.title then { conv with title := some (q.take 100) }
              else conv) :: post := by
  induction pre with
  | nil => simp [setTitleIfUnset, hconv]
  | cons x xs ih =>
    have hx := hpre x (List.mem_cons_self x xs)
    simp only [List.cons_append, setTitleIfUnset, hx, Bool.false_eq_true, if_false,
      List.append_eq]
    rw [ih (fun y hy => hpre y (List.mem_cons_of_mem x hy))]

theorem setTitleIfUnset_absent (convs : List Conversation) (cid q : Str)
    (h : ∀ x ∈ convs, (x.id == cid) = false) :
    setTitleIfUnset convs cid q = convs := by
  induction convs with
  | nil => rfl
  | cons x xs ih =>
    have hx := h x (List.mem_cons_self x xs)
    simp only [setTitleIfUnset, hx, Bool.false_eq_true, if_false]
    rw [ih (fun y hy => h y (List.mem_cons_of_mem x hy))]

/-- The conversation store is untouched by a run (frame condition): the
persisted messages and conversations equal the initial ones. -/
def convFrame (run : PipelineRun) (db : DBState) : Prop :=
  run.session.committed.messages = db.messages
  ∧ run.session.committed.conversations = db.conversations

/-- C7: exactly one user turn (the question) and one assistant turn (the
generated SQL fenced for display) are appended, only on the success path and
only when a truthy conversation id was supplied; the conversation title is
set to the first 100 characters of the question precisely when it was null
or empty; on every failure path, on success without a conversation id, and
on every direct-execution run, the conversation store is unchanged. -/
theorem conversation_side_effect (env : Env) (pid uid q model : Str) (db : DBState)
    (hc : ∀ n, env.commitFail n = none) :
    (∀ c g r, c ≠ [] → generate_sql env q = Except.ok g →
      is_dangerous_sql g.sql = false → bq_execute_query env g.sql = Except.ok r →
      (process_question env pid uid q (some c) model
            (mkSession db)).session.committed.messages
          = db.messages ++
            [{ conversation_id := c, role := str "user", content := q, tokens_used := 0 },
             { conversation_id := c, role := str "assistant",
               content := assistantContent g.sql, tokens_used := g.tokens_used }]
        ∧ (process_question env pid uid q (some c) model
              (mkSession db)).session.committed.conversations
            = setTitleIfUnset db.conversations c q)
    ∧ (∀ pre conv post c q2, (∀ x ∈ pre, (x.id == c) = false) → (conv.id == c) = true →
        setTitleIfUnset (pre ++ conv :: post) c q2 =
          pre ++ (if titleFalsy conv.title then { conv with title := some (q2.take 100) }
                  else conv) :: post)
    ∧ (∀ convs c q2, (∀ x ∈ convs, (x.id == c) = false) →
        setTitleIfUnset convs c q2 = convs)
    ∧ (∀ cid e, generate_sql env q = Except.error e →
        convFrame (process_question env pid uid q cid model (mkSession db)) db)
    ∧ (∀ cid g, generate_sql env q = Except.ok g → is_dangerous_sql g.sql = true →
        convFrame (process_question env pid uid q cid model (mkSession db)) db)
    ∧ (∀ cid g e, generate_sql env q = Except.ok g → is_dangerous_sql g.sql = false →
        bq_execute_query env g.sql = Except.error e →
        convFrame (process_question env pid uid q cid model (mkSession db)) db)
    ∧ (∀ g r, generate_sql env q = Except.ok g → is_dangerous_sql g.sql = false →
        bq_execute_query env g.sql = Except.ok r →
        convFrame (process_question env pid uid q none model (mkSession db)) db)
    ∧ (∀ env2 pid2 uid2 sql2 cid2 s2,
        (execute_sql_directly env2 pid2 uid2 sql2 cid2 s2).session = s2) := by
  refine ⟨?_, ?_, ?_, ?_, ?_, ?_, ?_, ?_⟩
  · intro c g r hcne hg hd hw
    rw [pq_success_run env pid uid q model (some c) (mkSession db) g r hg hd hw rfl (hc 0)]
    have ht : optTruthy (some c) = true := by
      simp [optTruthy, hcne]
    constructor
    · simp [successView, ht, save_messages, addLog_messages, mkSession]
    · simp [successView, ht, save_conversations, addLog_conversations, mkSession]
  · exact fun pre conv post c q2 h1 h2 => setTitleIfUnset_split pre conv post c q2 h1 h2
  · exact fun convs c q2 h => setTitleIfUnset_absent convs c q2 h
  · intro cid e hg
    rw [pq_gen_error_run env pid uid q model cid (mkSession db) e hg]
    constructor
    · rw [(pqFinalizeFailed_commit_ok _ _ _ rfl (hc 0)).2]
      exact addLog_messages _ _
    · rw [(pqFinalizeFailed_commit_ok _ _ _ rfl (hc 0)).2]
      exact addLog_conversations _ _
  · intro cid g hg hd
    rw [pq_gate_run env pid uid q model cid (mkSession db) g hg hd]
    constructor
    · rw [(pqFinalizeFailed_commit_ok _ _ _ rfl (hc 0)).2]
      exact addLog_messages _ _
    · rw [(pqFinalizeFailed_commit_ok _ _ _ rfl (hc 0)).2]
      exact addLog_conversations _ _
  · intro cid g e hg hd hw
    rw [pq_exec_error_run env pid uid q model cid (mkSession db) g e hg hd hw]
    constructor
    · rw [(pqFinalizeFailed_commit_ok _ _ _ rfl (hc 0)).2]
      exact addLog_messages _ _
    · rw [(pqFinalizeFailed_commit_ok _ _ _ rfl (hc 0)).2]
      exact addLog_conversations _ _
  · intro g r hg hd hw
    rw [pq_success_run env pid uid q model none (mkSession db) g r hg hd hw rfl (hc 0)]
    constructor
    · simp [successView, optTruthy, addLog_messages, mkSession]
    · simp [successView, optTruthy, addLog_conversations, mkSession]
  · exact fun env2 pid2 uid2 sql2 cid2 s2 =>
      execute_sql_directly_session env2 pid2 uid2 sql2 cid2 s2

/-- Environment for C7's witness. -/
def witConvEnv : Env :=
  { llm := Except.ok (str "SELECT 1"), warehouse := fun _ => Except.ok ⟨[], 1, 0⟩,
    commitFail := fun _ => none, freshId := str "id-7" }

/-- A store holding one untitled conversation "c1". -/
def witConvDB : DBState := { emptyDB with conversations := [⟨str "c1", none⟩] }

/-- Closed witness for C7: on the success path with conversation "c1", the
user turn and the fenced assistant turn are appended and the title is
back-filled from the question. -/
theorem conversation_side_effect_witness :
    (process_question witConvEnv (str "p") (str "u") (str "q") (some (str "c1")) (str "m")
        (mkSession witConvDB)).session.committed.messages =
      witConvDB.messages ++
        [{ conversation_id := str "c1", role := str "user", content := str "q",
           tokens_used := 0 },
         { conversation_id := str "c1", role := str "assistant",
           content := assistantContent (str "SELECT 1"),
           tokens_used := (sql_template.length + 9) / 4 }]
    ∧ (process_question witConvEnv (str "p") (str "u") (str "q") (some (str "c1"))
          (str "m") (mkSession witConvDB)).session.committed.conversations =
        setTitleIfUnset witConvDB.conversations (str "c1") (str "q") :=
  (conversation_side_effect witConvEnv (str "p") (str "u") (str "q") (str "m") witConvDB
      (fun n => rfl)).1
    (str "c1") ⟨str "SELECT 1", (sql_template.length + 9) / 4⟩ ⟨[], 1, 0⟩
    (by decide) rfl rfl rfl

/-! ### Fence-deletion lemmas (`replace` removes every occurrence) -/

theorem fence3_ne_nil : fence3 ≠ [] := by decide

theorem fenceSql_ne_nil : fenceSql ≠ [] := by decide

theorem deleteAll_append_self {p : Str} (hp : p ≠ []) (s : Str) :
    deleteAll p (p ++ s) = deleteAll p s := by
  cases hpp : p with
  | nil => exact absurd hpp hp
  | cons a p' =>
    have hsw : startsWith (a :: p') (a :: (p' ++ s)) = true :=
      startsWith_eq_true_iff.mpr ⟨s, rfl⟩
    have := @deleteAll_cons_pos (a :: p') a (p' ++ s) hsw (by simp)
    simpa [List.drop_left] using this

theorem deleteAll_of_not_infix {p s : Str} (h : ¬ p <:+: s) : deleteAll p s = s := by
  induction s with
  | nil => rfl
  | cons c rest ih =>
    have hsw : ¬ startsWith p (c :: rest) = true := fun hx =>
      h (List.IsPrefix.isInfix (startsWith_eq_true_iff.mp hx))
    rw [deleteAll_cons_neg hsw, ih (fun hx => h (List.infix_cons hx))]

theorem deleteAll_of_longer {p s : Str} (h : s.length < p.length) : deleteAll p s = s :=
  deleteAll_of_not_infix
    (fun hinf => absurd (List.IsInfix.length_le hinf) (Nat.not_le.mpr h))

theorem prefix_append_cases (x : Str) : ∀ (p y : Str), p <+: x ++ y →
    p <+: x ∨ ∃ r, p = x ++ r ∧ r <+: y := by
  induction x with
  | nil =>
    intro p y h
    exact Or.inr ⟨p, rfl, by simpa using h⟩
  | cons c x' ih =>
    intro p y h
    cases p with
    | nil => exact Or.inl List.nil_prefix
    | cons d p' =>
      have h2 := List.cons_prefix_cons.mp h
      rcases ih p' y h2.2 with hL | ⟨r, hr1, hr2⟩
      · exact Or.inl (List.cons_prefix_cons.mpr ⟨h2.1, hL⟩)
      · refine Or.inr ⟨r, ?_, hr2⟩
        rw [h2.1, hr1]
        rfl

theorem infix_drop_last {p s : Str} {x : Char} (hx : x ∉ p) (hpne : p ≠ [])
    (h : p <:+: s ++ [x]) : p <:+: s := by
  have h1 : p.reverse <:+: (s ++ [x]).reverse := List.reverse_infix.mpr h
  rw [List.reverse_append] at h1
  simp only [List.reverse_singleton, List.singleton_append] at h1
  rcases List.infix_cons_iff.mp h1 with hp | hi
  · cases hrv : p.reverse with
    | nil => exact absurd (by simpa using congrArg List.reverse hrv) hpne
    | cons y ys =>
      rw [hrv] at hp
      have hyx : y = x := (List.cons_prefix_cons.mp hp).1
      have hyp : y ∈ p.reverse := by
        rw [hrv]
        exact List.mem_cons_self y ys
      rw [List.mem_reverse, hyx] at hyp
      exact absurd hyp hx
  · exact List.reverse_infix.mp hi

theorem nl_not_mem_fence3 : ¬ '\n' ∈ fence3 := by decide

theorem nl_not_mem_fenceSql : ¬ '\n' ∈ fenceSql := by decide

theorem fence3_prefix_fenceSql : fence3 <+: fenceSql := ⟨str "sql", rfl⟩

/-- Deleting every `"```"` occurrence from `a ++ "\n```"`, where `a ++ "\n"`
contains no fence, removes exactly the trailing fence. -/
theorem deleteAll_fence3_sep : ∀ a : Str, ¬ fence3 <:+: (a ++ ['\n']) →
    deleteAll fence3 (a ++ ('\n' :: fence3)) = a ++ ['\n'] := by
  intro a
  induction a with
  | nil =>
    intro h
    decide
  | cons c a' ih =>
    intro h
    have hshape : (c :: a') ++ ('\n' :: fence3) =
        ((c :: a') ++ ['\n']) ++ fence3 := by simp
    have hnomatch : ¬ startsWith fence3 (c :: (a' ++ ('\n' :: fence3))) = true := by
      intro hx
      have hp : fence3 <+: ((c :: a') ++ ['\n']) ++ fence3 := by
        rw [← hshape]
        exact startsWith_eq_true_iff.mp hx
      rcases prefix_append_cases ((c :: a') ++ ['\n']) fence3 fence3 hp with hL | ⟨r, hr1, _⟩
      · exact h (List.IsPrefix.isInfix hL)
      · have hmem : '\n' ∈ fence3 := by
          rw [hr1]
          exact List.mem_append_left r (by simp)
        exact nl_not_mem_fence3 hmem
    show deleteAll fence3 (c :: (a' ++ ('\n' :: fence3))) = (c :: a') ++ ['\n']
    rw [deleteAll_cons_neg hnomatch]
    have hless : ¬ fence3 <:+: (a' ++ ['\n']) := fun hx =>
      h (List.infix_cons hx)
    rw [ih hless]
    rfl

/-- Deleting every `"```sql"` occurrence from `a ++ "\n```"`, where
`a ++ "\n"` contains no fence, changes nothing. -/
theorem deleteAll_fenceSql_sep : ∀ a : Str, ¬ fence3 <:+: (a ++ ['\n']) →
    deleteAll fenceSql (a ++ ('\n' :: fence3)) = a ++ ('\n' :: fence3) := by
  intro a
  induction a with
  | nil =>
    intro h
    decide
  | cons c a' ih =>
    intro h
    have hshape : (c :: a') ++ ('\n' :: fence3) =
        ((c :: a') ++ ['\n']) ++ fence3 := by simp
    have hnomatch : ¬ startsWith fenceSql (c :: (a' ++ ('\n' :: fence3))) = true := by
      intro hx
      have hp : fenceSql <+: ((c :: a') ++ ['\n']) ++ fence3 := by
        rw [← hshape]
        exact startsWith_eq_true_iff.mp hx
      rcases prefix_append_cases ((c :: a') ++ ['\n']) fenceSql fence3 hp with hL | ⟨r, hr1, _⟩
      · exact h (List.IsPrefix.isInfix (List.IsPrefix.trans fence3_prefix_fenceSql hL))
      · have hmem : '\n' ∈ fenceSql := by
          rw [hr1]
          exact List.mem_append_left r (by simp)
        exact nl_not_mem_fenceSql hmem
    show deleteAll fenceSql (c :: (a' ++ ('\n' :: fence3))) = (c :: a') ++ ('\n' :: fence3)
    rw [deleteAll_cons_neg hnomatch]
    have hless : ¬ fence3 <:+: (a' ++ ['\n']) := fun hx =>
      h (List.infix_cons hx)
    rw [ih hless]
    rfl

/-! ### C10: fence stripping removes every fence occurrence -/

theorem prefix_head {a : Char} {p out : Str} (h : (a :: p) <+: out) :
    out.head? = some a := by
  cases out with
  | nil => simp at h
  | cons y ys =>
    rw [(List.cons_prefix_cons.mp h).1]
    rfl

theorem deleteAll_head_ne_bt {s : Str} (h : s.head? ≠ some btChar) :
    (deleteAll fence3 s).head? ≠ some btChar := by
  cases s with
  | nil => simp [deleteAll_nil]
  | cons c rest =>
    have hc : c ≠ btChar := fun hcc => h (by rw [hcc]; rfl)
    have hbc : (btChar == c) = false := beq_eq_false_iff_ne.mpr (fun hh => hc hh.symm)
    have hm : ¬ startsWith fence3 (c :: rest) = true := by
      show ¬ ((btChar == c) && startsWith [btChar, btChar] rest) = true
      simp [hbc]
    rw [deleteAll_cons_neg hm]
    intro hcc
    exact hc (Option.some.inj hcc)

theorem two_bt_not_prefix {rest : Str}
    (hm : startsWith [btChar, btChar] rest = false) :
    ¬ [btChar, btChar] <+: deleteAll fence3 rest := by
  intro h2
  cases rest with
  | nil =>
    rw [deleteAll_nil] at h2
    simp at h2
  | cons d rest2 =>
    by_cases hd : d = btChar
    · subst hd
      have hm3 : startsWith [btChar] rest2 = false := by
        have he : startsWith [btChar, btChar] (btChar :: rest2) =
            startsWith [btChar] rest2 := by
          show ((btChar == btChar) && startsWith [btChar] rest2) = _
          simp
        rwa [he] at hm
      have hr2 : rest2.head? ≠ some btChar := by
        cases rest2 with
        | nil => simp
        | cons e rest3 =>
          intro hx
          have he : e = btChar := Option.some.inj hx
          subst he
          have hone : startsWith [btChar] (btChar :: rest3) = true := by
            show ((btChar == btChar) && startsWith [] rest3) = true
            simp [startsWith]
          rw [hone] at hm3
          simp at hm3
      have hnom : ¬ startsWith fence3 (btChar :: rest2) = true := by
        intro hx
        have hsw2 : startsWith [btChar, btChar] rest2 = true := by
          have he : startsWith fence3 (btChar :: rest2) =
              startsWith [btChar, btChar] rest2 := by
            show ((btChar == btChar) && startsWith [btChar, btChar] rest2) = _
            simp
          rwa [he] at hx
        cases rest2 with
        | nil => simp [startsWith] at hsw2
        | cons e rest3 =>
          have h1 := List.cons_prefix_cons.mp (startsWith_eq_true_iff.mp hsw2)
          exact hr2 (by rw [← h1.1]; rfl)
      rw [deleteAll_cons_neg hnom] at h2
      have h3 : [btChar] <+: deleteAll fence3 rest2 := (List.cons_prefix_cons.mp h2).2
      exact deleteAll_head_ne_bt hr2 (prefix_head h3)
    · have hout := deleteAll_head_ne_bt (s := d :: rest2)
        (fun hx => hd (Option.some.inj hx))
      exact hout (prefix_head h2)

theorem no_f3_aux : ∀ n s, s.length ≤ n → ¬ fence3 <:+: deleteAll fence3 s := by
  intro n
  induction n with
  | zero =>
    intro s hle
    have hs : s = [] := List.eq_nil_of_length_eq_zero (Nat.le_zero.mp hle)
    subst hs
    rw [deleteAll_nil]
    exact fun hx => fence3_ne_nil (List.infix_nil.mp hx)
  | succ n ih =>
    intro s hle
    cases s with
    | nil =>
      rw [deleteAll_nil]
      exact fun hx => fence3_ne_nil (List.infix_nil.mp hx)
    | cons c rest =>
      by_cases hm : startsWith fence3 (c :: rest) = true
      · rw [deleteAll_cons_pos hm fence3_ne_nil]
        refine ih _ (Nat.le_trans ?_ (Nat.le_of_succ_le_succ hle))
        simp [List.length_drop]
      · rw [deleteAll_cons_neg hm]
        intro hinf
        rcases List.infix_cons_iff.mp hinf with hpre | hinf2
        · have h1 := List.cons_prefix_cons.mp hpre
          have hm2 : startsWith [btChar, btChar] rest = false := by
            rcases Bool.eq_false_or_eq_true (startsWith [btChar, btChar] rest) with hx | hx
            · exfalso
              apply hm
              show ((btChar == c) && startsWith [btChar, btChar] rest) = true
              rw [← h1.1, hx]
              simp
            · exact hx
          exact two_bt_not_prefix hm2 h1.2
        · exact ih rest (Nat.le_of_succ_le_succ hle) hinf2

/-- Python `replace("```", "")` leaves no `"```"` occurrence behind, even
when deletions make previously separated backticks adjacent. -/
theorem no_fence3_in_deleteAll (s : Str) : ¬ fence3 <:+: deleteAll fence3 s :=
  no_f3_aux s.length s (Nat.le_refl _)

theorem trimLeft_suffix (s : Str) : trimLeft s <:+ s := List.dropWhile_suffix _

theorem trimRight_pre (s : Str) : trimRight s <+: s := by
  unfold trimRight
  have h := List.dropWhile_suffix (l := s.reverse) wsChar
  have h2 := List.reverse_prefix.mpr h
  rwa [List.reverse_reverse] at h2

theorem pyStripInfix (s : Str) : pyStrip s <:+: s := by
  unfold pyStrip
  exact List.IsInfix.trans (List.IsPrefix.isInfix (trimRight_pre (trimLeft s)))
    (List.IsSuffix.isInfix (trimLeft_suffix s))

theorem startsWith_fence3_of_fenceSql {s : Str} (h : startsWith fenceSql s = true) :
    startsWith fence3 s = true :=
  startsWith_eq_true_iff.mpr
    (List.IsPrefix.trans fence3_prefix_fenceSql (startsWith_eq_true_iff.mp h))

/-- C10: when the stripped LLM response begins with a triple-backtick fence,
the post-processing deletes every occurrence of the fence anywhere in the
text — the result contains no "```" substring at all (so fences embedded in
the middle of the SQL body are removed too, and in the "```sql" branch every
"```sql" occurrence as well, since it contains "```"); a response not
beginning with a fence is returned with only its surrounding whitespace
stripped. -/
theorem fence_removal_global (raw : Str) :
    (startsWith fence3 (pyStrip raw) = false → extract_sql raw = pyStrip raw)
    ∧ (startsWith fence3 (pyStrip raw) = true → ¬ fence3 <:+: extract_sql raw) := by
  constructor
  · intro h
    have h6 : startsWith fenceSql (pyStrip raw) = false := by
      rcases Bool.eq_false_or_eq_true (startsWith fenceSql (pyStrip raw)) with hx | hx
      · rw [startsWith_fence3_of_fenceSql hx] at h
        simp at h
      · exact hx
    simp [extract_sql, h, h6]
  · intro h hinf
    by_cases h6 : startsWith fenceSql (pyStrip raw) = true
    · simp only [extract_sql, h6, if_true] at hinf
      exact no_fence3_in_deleteAll _ (List.IsInfix.trans hinf (pyStripInfix _))
    · have h6f : startsWith fenceSql (pyStrip raw) = false := Bool.eq_false_iff.mpr h6
      simp only [extract_sql, h6f, h, if_true, Bool.false_eq_true, if_false] at hinf
      exact no_fence3_in_deleteAll _ (List.IsInfix.trans hinf (pyStripInfix _))

/-- Closed witness for C10: a response with a fence embedded mid-body; after
post-processing no "```" remains anywhere. -/
theorem fence_removal_global_witness :
    startsWith fence3 (pyStrip (str "```\nSELECT 1 ``` 2\n```")) = true
    ∧ ¬ fence3 <:+: extract_sql (str "```\nSELECT 1 ``` 2\n```") :=
  ⟨by decide, (fence_removal_global (str "```\nSELECT 1 ``` 2\n```")).2 (by decide)⟩

/-! ### C6: sql-tagged versus bare fences -/

/-- The fenced body `"\n" ++ t ++ "\n```"` shared by both wrappings. -/
def innerWrap (t : Str) : Str := ('\n' :: t) ++ ('\n' :: fence3)

/-- An LLM response wrapping `t` in an sql-tagged fence: `"```sql\n" ++ t ++ "\n```"`. -/
def wrapTagged (t : Str) : Str := fenceSql ++ innerWrap t

/-- An LLM response wrapping `t` in a bare fence: `"```\n" ++ t ++ "\n```"`. -/
def wrapBare (t : Str) : Str := fence3 ++ innerWrap t

/-- C6 counterexample: for the inner text `"SELECT ```sql x"`, the sql-tagged
wrapping and the bare wrapping post-process to different SQL ("SELECT  x"
versus "SELECT sql x"), because `replace` deletes every occurrence, not just
the outer fences. -/
theorem fence_agreement_counterexample :
    extract_sql (wrapTagged (str "SELECT ```sql x")) ≠
      extract_sql (wrapBare (str "SELECT ```sql x")) := by decide

theorem pyStrip_of_ends (c d : Char) (mid : Str) (hc : wsChar c = false)
    (hd : wsChar d = false) : pyStrip (c :: (mid ++ [d])) = c :: (mid ++ [d]) := by
  unfold pyStrip trimLeft trimRight
  rw [List.dropWhile_cons]
  simp only [hc, Bool.false_eq_true, if_false]
  have hrev : (c :: (mid ++ [d])).reverse = d :: (mid.reverse ++ [c]) := by simp
  rw [hrev, List.dropWhile_cons]
  simp only [hd, Bool.false_eq_true, if_false]
  rw [← hrev, List.reverse_reverse]

theorem str_sql_eq : str "sql" = ['s', 'q', 'l'] := rfl

theorem wrapTagged_shape (t : Str) :
    wrapTagged t = btChar ::
      (([btChar, btChar, 's', 'q', 'l', '\n'] ++ (t ++ ['\n', btChar, btChar])) ++
        [btChar]) := by
  simp [wrapTagged, innerWrap, fenceSql, fence3, str_sql_eq]

theorem wrapBare_shape (t : Str) :
    wrapBare t = btChar ::
      (([btChar, btChar, '\n'] ++ (t ++ ['\n', btChar, btChar])) ++ [btChar]) := by
  simp [wrapBare, innerWrap, fence3]

/-- C6 amended: for every inner text containing no triple-backtick fence
(`"```"` does not occur in it), the sql-tagged wrapping and the bare
wrapping post-process to identical stripped SQL. -/
theorem fence_agreement_amended (t : Str) (h : ¬ fence3 <:+: t) :
    extract_sql (wrapTagged t) = extract_sql (wrapBare t) := by
  have hA : ¬ fence3 <:+: (('\n' :: t) ++ ['\n']) := by
    intro hx
    have h2 := infix_drop_last nl_not_mem_fence3 fence3_ne_nil hx
    rcases List.infix_cons_iff.mp h2 with hpre | hinf
    · have := (List.cons_prefix_cons.mp hpre).1
      exact absurd this (by decide)
    · exact h hinf
  have hs1 : pyStrip (wrapTagged t) = wrapTagged t := by
    rw [wrapTagged_shape]
    exact pyStrip_of_ends _ _ _ (by decide) (by decide)
  have hs2 : pyStrip (wrapBare t) = wrapBare t := by
    rw [wrapBare_shape]
    exact pyStrip_of_ends _ _ _ (by decide) (by decide)
  have ht1 : startsWith fenceSql (wrapTagged t) = true := rfl
  have hb1 : startsWith fenceSql (wrapBare t) = false := rfl
  have hb2 : startsWith fence3 (wrapBare t) = true := rfl
  have e1 : deleteAll fenceSql (wrapTagged t) = innerWrap t := by
    unfold wrapTagged
    rw [deleteAll_append_self fenceSql_ne_nil]
    exact deleteAll_fenceSql_sep ('\n' :: t) hA
  have e2 : deleteAll fence3 (innerWrap t) = ('\n' :: t) ++ ['\n'] :=
    deleteAll_fence3_sep ('\n' :: t) hA
  have e3 : deleteAll fence3 (wrapBare t) = ('\n' :: t) ++ ['\n'] := by
    unfold wrapBare
    rw [deleteAll_append_self fence3_ne_nil]
    exact e2
  simp only [extract_sql, hs1, hs2, ht1, hb1, hb2, if_true, Bool.false_eq_true, if_false]
  rw [e1, e2, e3]

/-- Closed witness for C6's amended form at the fence-free inner text
`"SELECT 1"`. -/
theorem fence_agreement_amended_witness :
    extract_sql (wrapTagged (str "SELECT 1")) = extract_sql (wrapBare (str "SELECT 1")) :=
  fence_agreement_amended (str "SELECT 1") (by decide)
